import Mathlib

/-!
Verification of the GitBard command-pipeline engine.

This file is a shallow embedding of the pipeline engine found under
src/pipelines of the repository (base.py, registry.py, the commands, and
the concrete stages), together with the comment-posting helper
post_gitlab_note of src/app_old.py.  Python dictionaries and JSON payload
values are modelled by the Json type below; Python exceptions raised by a
stage body are modelled by the Except-valued core functions; the outside
world (filesystem, GitLab HTTP calls, subprocesses) is modelled by an
explicit World state threaded through the stages, with an Env record
supplying the outcomes of external calls (tempfile.mkdtemp, requests.post,
git, the opencode subprocess, json.loads).  shutil.rmtree is modelled as
removing the named directory from the World filesystem (its ignore_errors
flag only concerns OS-level failures outside this embedding).  Logging is
modelled only where a claim refers to it: stage entry/exit/failure events
and the warnings of post_gitlab_note.
-/

set_option maxRecDepth 10000

/-- Python/JSON values as they occur in webhook payloads, GitLab API
responses, and the string-keyed dictionaries of the pipeline. `null` is
Python `None`. -/
inductive Json where
  | null
  | bool (b : Bool)
  | num (n : Int)
  | str (s : String)
  | arr (xs : List Json)
  | obj (fields : List (String × Json))

/-- A Python `dict` with string keys, as used for `webhook_payload`,
`metadata` and `code_snapshot`. -/
abbrev Dict := List (String × Json)

/-- `d.get(k)` on a dict: the value under the first matching key, if any. -/
def dGet (d : Dict) (k : String) : Option Json :=
  match d.find? (fun p => p.1 == k) with
  | some p => some p.2
  | none => none

/-- `d[k] = v` on a dict: replace the value under `k`, or append the pair. -/
def dSet (d : Dict) (k : String) (v : Json) : Dict :=
  if d.any (fun p => p.1 == k) then
    d.map (fun p => if p.1 == k then (k, v) else p)
  else d ++ [(k, v)]

/-- Python `v.get(k)`: succeeds with the (optional) value when `v` is a
dict, raises `AttributeError` otherwise. -/
def pyGet (v : Json) (k : String) : Except String (Option Json) :=
  match v with
  | .obj fields => .ok (dGet fields k)
  | _ => .error "AttributeError"

/-- Python `v.get(k, d)` with an explicit default. -/
def pyGetD (v : Json) (k : String) (d : Json) : Except String Json :=
  match pyGet v k with
  | .error e => .error e
  | .ok r => .ok (r.getD d)

/-- Python `v.get(k)` read as a value: a missing key yields `None`. -/
def pyGetN (v : Json) (k : String) : Except String Json :=
  match pyGet v k with
  | .error e => .error e
  | .ok r => .ok (r.getD .null)

/-- Python truthiness of a JSON value. -/
def Json.truthy : Json → Bool
  | .null => false
  | .bool b => b
  | .num n => n != 0
  | .str s => s != ""
  | .arr xs => !xs.isEmpty
  | .obj fs => !fs.isEmpty

/-- Truthiness of the result of a dict lookup (`None` for a missing key). -/
def optTruthy : Option Json → Bool
  | none => false
  | some v => v.truthy

/-- Python `v == s` for a string literal `s`: true exactly when `v` is that
string. -/
def Json.isStr : Json → String → Bool
  | .str t, s => t == s
  | _, _ => false

/-- `v == s` where `v` is the result of a dict lookup. -/
def optIsStr : Option Json → String → Bool
  | some v, s => v.isStr s
  | none, _ => false

/-- Python `s.startswith(pre)`. -/
def pyStartsWith (s pre : String) : Bool :=
  decide (pre.data <+: s.data)

/-- Python `pat in s` (substring containment). -/
def pyIn (pat s : String) : Bool :=
  decide (pat.data <:+: s.data)

/-- Python `s.strip()`: drop whitespace characters from both ends
(implemented over the character list so that it evaluates inside the
kernel). -/
def pyStrip (s : String) : String :=
  ⟨((s.data.dropWhile Char.isWhitespace).reverse.dropWhile
      Char.isWhitespace).reverse⟩

/-- Python `s[:n]` (slicing by code points). -/
def pyTake (s : String) (n : Nat) : String :=
  ⟨s.data.take n⟩

/-- Python `s[n:]` (slicing by code points). -/
def pyDrop (s : String) (n : Nat) : String :=
  ⟨s.data.drop n⟩

/-- Fuelled worker for `pyReplace`. -/
def pyReplaceGo (pat repl : List Char) : Nat → List Char → List Char
  | _, [] => []
  | 0, l => l
  | fuel + 1, c :: rest =>
    if pat.isPrefixOf (c :: rest) then
      repl ++ pyReplaceGo pat repl fuel (List.drop (pat.length - 1) rest)
    else c :: pyReplaceGo pat repl fuel rest

/-- Python `s.replace(pat, repl)`: replace every non-overlapping
occurrence left to right (a kernel-evaluable, fuelled implementation). -/
def pyReplace (s pat repl : String) : String :=
  ⟨pyReplaceGo pat.data repl.data s.data.length s.data⟩

/-- Python `str(v)` for the values the pipeline actually renders into
comment bodies (containers get an approximate rendering). -/
def jsonStr : Json → String
  | .null => "None"
  | .bool true => "True"
  | .bool false => "False"
  | .num n => toString n
  | .str s => s
  | .arr _ => "[...]"
  | .obj _ => "\x7b...\x7d"

/-- `AgentResult` of src/pipelines/base.py. -/
structure AgentResult where
  content : String
  format : String := "markdown"
  metadata : Dict := []

/-- `PipelineContext` of src/pipelines/base.py.  `gitlab_note_id` starts as
Python `None` (`Json.null`) and receives whatever `note_response.get("id")`
returns. -/
structure PipelineContext where
  webhook_payload : Dict
  command : Option String := none
  project_info : Option Dict := none
  code_snapshot : Option Dict := none
  local_context_path : Option String := none
  agent_result : Option AgentResult := none
  gitlab_note_id : Json := .null
  metadata : Dict := []

/-- `StageResult` of src/pipelines/base.py, with its field defaults. -/
structure StageResult where
  context : PipelineContext
  should_stop : Bool := false
  error : Option String := none
  success : Bool := true

/-- Observable log events: stage entry/completion/failure as logged by
`Stage.execute`, and the warnings of `post_gitlab_note`. -/
inductive LogEvent where
  | enter (stage : String)
  | complete (stage : String)
  | fail (stage : String)
  | warn (msg : String)
deriving DecidableEq

/-- Is this log event a stage-entry event? -/
def LogEvent.isEnter : LogEvent → Bool
  | .enter _ => true
  | _ => false

/-- A comment successfully created through the GitLab notes API. -/
structure PostedNote where
  project_id : Json
  noteable_type : Json
  noteable_iid : Json
  body : String

/-- The external world: existing workspace directories, comments posted so
far, the count of HTTP post attempts, the log, and how many times the
Pipeline cleanup block has run. -/
structure World where
  fs : List String := []
  posted : List PostedNote := []
  httpCount : Nat := 0
  log : List LogEvent := []
  cleanups : Nat := 0

/-- The environment: configuration and the outcomes of external calls.
`httpPost k` is the JSON response of the k-th successful-or-failed HTTP
post (`none` models a requests exception); `tempName` is the directory
name `tempfile.mkdtemp` returns; `jsonParse` is `json.loads` (`none`
models `JSONDecodeError`); `issueContent` summarizes the HTTP fetch and
markdown rendering of `IssueContextFetcherStage._build_issue_content`
(`none` models a fetch failure). -/
structure Env where
  gitlab_pat : String
  httpPost : Nat → Option Json
  tempName : String
  cloneOk : Bool
  checkoutOk : String → Bool
  opencodeReturncode : Int
  opencodeStdoutLines : List String
  opencodeStderr : String
  jsonParse : String → Option Json
  issueContent : Option String

/-- Append one event to the world log. -/
def pushLog (e : LogEvent) (w : World) : World :=
  { w with log := w.log ++ [e] }

/-- `post_gitlab_note` of src/app_old.py.  Missing credentials or an
unsupported noteable type log a warning and return `None` without any HTTP
call; otherwise one HTTP post is attempted and a requests exception is
caught and converted to `None`. -/
def post_gitlab_note (env : Env) (w : World)
    (project_id noteable_type noteable_iid : Json) (body : String) :
    Option Json × World :=
  if env.gitlab_pat == "" then
    (none, pushLog (.warn "GITLAB_PAT not configured, cannot post note") w)
  else if noteable_type.isStr "MergeRequest" || noteable_type.isStr "Issue" then
    match env.httpPost w.httpCount with
    | some resp =>
      (some resp,
        { w with
          posted := w.posted ++ [⟨project_id, noteable_type, noteable_iid, body⟩],
          httpCount := w.httpCount + 1 })
    | none => (none, { w with httpCount := w.httpCount + 1 })
  else
    (none, pushLog (.warn ("Unsupported noteable_type: " ++ jsonStr noteable_type)) w)

/-- The closed set of concrete stages of src/pipelines/stages, with their
constructor parameters. -/
inductive StageImpl where
  | hookResolver
  | snapshotResolver
  | contextBuilder
  | agentExecutor (agent_type : String)
  | issueContextFetcher (filename : String)
  | opencodeIntegration (model agent : String)
  | noteUpdater
deriving DecidableEq

/-- A `Command` of src/pipelines/commands: name, trigger phrase, and the
stage sequence its `get_pipeline` assembles. -/
structure Command where
  name : String
  trigger_pattern : String
  stages : List StageImpl

/-- `ReviewCommand` of src/pipelines/commands/oc_review.py. -/
def reviewCommand : Command :=
  ⟨"oc_review", "/oc_review",
    [.hookResolver, .snapshotResolver, .contextBuilder,
     .agentExecutor "review", .noteUpdater]⟩

/-- `AskCommand` of src/pipelines/commands/oc_ask.py. -/
def askCommand : Command :=
  ⟨"oc_ask", "/oc_ask",
    [.hookResolver, .snapshotResolver, .contextBuilder,
     .agentExecutor "general", .noteUpdater]⟩

/-- `TestCommand` of src/pipelines/commands/oc_test.py. -/
def testCommand : Command :=
  ⟨"oc_test", "/oc_test",
    [.hookResolver, .snapshotResolver, .contextBuilder,
     .issueContextFetcher "gitlab_issue_content.md",
     .opencodeIntegration "minimax/MiniMax-M2.1" "Build", .noteUpdater]⟩

/-- `COMMANDS` of src/pipelines/registry.py, in registration order. -/
def COMMANDS : List Command := [reviewCommand, askCommand, testCommand]

/-- `detect_command` of src/pipelines/registry.py: first registered command
whose trigger phrase occurs in the text. -/
def detect_command (text : String) : Option Command :=
  COMMANDS.find? (fun c => pyIn c.trigger_pattern text)

/-- `get_pipeline_for_command` of src/pipelines/registry.py, returning the
stage sequence. -/
def get_pipeline_for_command (commandName : String) : Option (List StageImpl) :=
  match COMMANDS.find? (fun c => c.name == commandName) with
  | some c => some c.stages
  | none => none

/-- The fixed self-echo prefix checked by `HookResolverStage._execute`
(`note.startswith("🤖 OpenCode")`). -/
def selfEchoMarker : String := "🤖 OpenCode"

/-- The acknowledgement comment body posted by `HookResolverStage`. -/
def ackBody (trigger : String) : String :=
  "🤖 OpenCode started working on `" ++ trigger ++ "`..."

/-- The results comment body posted by `NoteUpdaterStage` on success. -/
def successBody (content : String) : String :=
  "🤖 **OpenCode Results**\n\n" ++ content

/-- The failure comment body posted by `NoteUpdaterStage` when the
side-channel carries a recorded pipeline error. -/
def failureBody (errText : String) : String :=
  "❌ **OpenCode Error**\n\nPipeline failed: " ++ errText

/-- `_get_noteable_iid`, the identical private helper of
`HookResolverStage` and `NoteUpdaterStage`. -/
def getNoteableIid (payload : Dict) : Except String Json :=
  let oa := (dGet payload "object_attributes").getD (.obj [])
  match pyGetN oa "noteable_type" with
  | .error e => .error e
  | .ok nt =>
    if nt.isStr "MergeRequest" then
      pyGetN ((dGet payload "merge_request").getD (.obj [])) "iid"
    else if nt.isStr "Issue" then
      pyGetN ((dGet payload "issue").getD (.obj [])) "iid"
    else
      pyGetN oa "noteable_id"

/-- Outcome of a stage body (`_execute`): a `StageResult`, or a raised
exception together with the context as mutated up to the raise (Python
mutates the context object in place, so mutations made before an exception
survive into the error result of the wrapper). -/
abbrev CoreOut := Except (PipelineContext × String) StageResult

/-- A `StageResult` built with the dataclass defaults
(`error=None`, `success=True`), as every stage body in the repository
does. -/
def okResult (c : PipelineContext) (stop : Bool) : StageResult :=
  { context := c, should_stop := stop }

/-- `HookResolverStage._execute` of src/pipelines/stages/hook_resolver.py. -/
def hookResolverCore (env : Env) (ctx : PipelineContext) (w : World) :
    CoreOut × World :=
  let payload := ctx.webhook_payload
  if !(optIsStr (dGet payload "object_kind") "note") then
    (.ok (okResult ctx true), w)
  else
    let oa := (dGet payload "object_attributes").getD (.obj [])
    match pyGetD oa "note" (.str "") with
    | .error e => (.error (ctx, e), w)
    | .ok noteVal =>
      match pyGetN oa "noteable_type" with
      | .error e => (.error (ctx, e), w)
      | .ok ntype =>
        match noteVal with
        | .str note =>
          if pyStartsWith note selfEchoMarker then
            (.ok (okResult ctx true), w)
          else
            match detect_command note with
            | none => (.ok (okResult ctx true), w)
            | some cmd =>
              let ctx1 := { ctx with
                command := some cmd.name,
                metadata :=
                  dSet (dSet (dSet ctx.metadata "noteable_type" ntype)
                    "note_body" (.str note))
                    "trigger_pattern" (.str cmd.trigger_pattern) }
              match pyGetN ((dGet payload "project").getD (.obj [])) "id" with
              | .error e => (.error (ctx1, e), w)
              | .ok project_id =>
                match getNoteableIid payload with
                | .error e => (.error (ctx1, e), w)
                | .ok niid =>
                  let pr := post_gitlab_note env w project_id ntype niid
                    (ackBody cmd.trigger_pattern)
                  match pr.1 with
                  | some resp =>
                    if resp.truthy then
                      match pyGetN resp "id" with
                      | .error e => (.error (ctx1, e), pr.2)
                      | .ok idVal =>
                        (.ok (okResult { ctx1 with gitlab_note_id := idVal } false), pr.2)
                    else (.ok (okResult ctx1 false), pr.2)
                  | none => (.ok (okResult ctx1 false), pr.2)
        | _ => (.error (ctx, "AttributeError"), w)

/-- `mr.get("diff_refs", \x7b\x7d).get("head_sha")` as computed by
`SnapshotResolverStage._execute`. -/
def mrHeadSha (payload : Dict) : Except String Json :=
  match pyGetD ((dGet payload "merge_request").getD (.obj [])) "diff_refs" (.obj []) with
  | .error e => .error e
  | .ok dr => pyGetN dr "head_sha"

/-- `mr.get(k)` for the merge-request object of the payload. -/
def mrField (payload : Dict) (k : String) : Except String Json :=
  pyGetN ((dGet payload "merge_request").getD (.obj [])) k

/-- `SnapshotResolverStage._execute` of
src/pipelines/stages/snapshot_resolver.py. -/
def snapshotResolverCore (env : Env) (ctx : PipelineContext) (w : World) :
    CoreOut × World :=
  let payload := ctx.webhook_payload
  let ntype := dGet ctx.metadata "noteable_type"
  if optIsStr ntype "MergeRequest" then
    match mrHeadSha payload with
    | .error e => (.error (ctx, e), w)
    | .ok sha =>
      match mrField payload "source_branch" with
      | .error e => (.error (ctx, e), w)
      | .ok sb =>
        match mrField payload "target_branch" with
        | .error e => (.error (ctx, e), w)
        | .ok tb =>
          (.ok (okResult { ctx with code_snapshot := (
            some [("sha", sha), ("source_branch", sb), ("target_branch", tb)]) } false), w)
  else if optIsStr ntype "Issue" then
    (.ok (okResult { ctx with code_snapshot := (
      some [("sha", Json.null), ("branch", Json.str "main")]) } false), w)
  else
    (.ok (okResult { ctx with code_snapshot := some [] } false), w)

/-- `ContextBuilderStage._execute` of
src/pipelines/stages/context_builder.py.  `tempfile.mkdtemp` creates
`env.tempName` and the context points at it before any fallible step, so a
raise after that leaves a partial workspace behind for the Pipeline
cleanup. -/
def contextBuilderCore (env : Env) (ctx : PipelineContext) (w : World) :
    CoreOut × World :=
  let payload := ctx.webhook_payload
  let project := (dGet payload "project").getD (.obj [])
  let temp_dir := env.tempName
  let w1 := { w with fs := w.fs ++ [temp_dir] }
  let ctx1 := { ctx with local_context_path := some temp_dir }
  match pyGetN project "git_http_url" with
  | .error e => (.error (ctx1, e), w1)
  | .ok urlVal =>
    if !urlVal.truthy then
      (.error (ctx1, "No git_http_url in project"), w1)
    else
      match urlVal with
      | .str url =>
        let _auth_url := pyReplace url "https://"
          ("https://gitlab:" ++ env.gitlab_pat ++ "@")
        if !env.cloneOk then
          (.error (ctx1, "git clone failed"), w1)
        else
          match ctx1.code_snapshot with
          | none => (.error (ctx1, "AttributeError"), w1)
          | some snap =>
            if optTruthy (dGet snap "sha") then
              match dGet snap "sha" with
              | some (.str sha) =>
                if env.checkoutOk sha then (.ok (okResult ctx1 false), w1)
                else (.error (ctx1, "git checkout failed"), w1)
              | _ => (.error (ctx1, "TypeError"), w1)
            else if optTruthy (dGet snap "branch") then
              match dGet snap "branch" with
              | some (.str br) =>
                if env.checkoutOk br then (.ok (okResult ctx1 false), w1)
                else (.error (ctx1, "git checkout failed"), w1)
              | _ => (.error (ctx1, "TypeError"), w1)
            else (.ok (okResult ctx1 false), w1)
      | _ => (.error (ctx1, "AttributeError"), w1)

/-- Python rendering of an optional path in an f-string (`None` prints as
"None"). -/
def optPathStr : Option String → String
  | some s => s
  | none => "None"

/-- `AgentExecutorStage._execute` of
src/pipelines/stages/agent_executor.py, with its prompt builders inlined. -/
def agentExecutorCore (agent_type : String) (env : Env) (ctx : PipelineContext)
    (w : World) : CoreOut × World :=
  let prompt :=
    if agent_type == "review" then
      "Review the code in " ++ optPathStr ctx.local_context_path
    else if agent_type == "general" then
      "Answer questions about the code in " ++ optPathStr ctx.local_context_path
    else
      "Analyze the code"
  let content := "Agent result for " ++ agent_type ++ ": " ++ pyTake prompt 100 ++ "..."
  (.ok (okResult { ctx with agent_result := (
    some { content := content, format := "markdown",
           metadata := [("agent_type", .str agent_type)] }) } false), w)

/-- `IssueContextFetcherStage._execute` of
src/pipelines/stages/issue_context_fetcher.py.  The HTTP fetch plus
markdown rendering of `_build_issue_content` is summarized by
`env.issueContent` (its GITLAB_PAT guard is kept explicit); the file write
into the workspace is subsumed by the workspace directory entry in the
World filesystem. -/
def issueContextFetcherCore (filename : String) (env : Env)
    (ctx : PipelineContext) (w : World) : CoreOut × World :=
  if !(optIsStr (dGet ctx.metadata "noteable_type") "Issue") then
    (.ok (okResult ctx false), w)
  else
    match ctx.local_context_path with
    | none => (.error (ctx, "No local_context_path available for issue context"), w)
    | some repo_dir =>
      if repo_dir == "" then
        (.error (ctx, "No local_context_path available for issue context"), w)
      else
        match pyGetN ((dGet ctx.webhook_payload "project").getD (.obj [])) "id" with
        | .error e => (.error (ctx, e), w)
        | .ok project_id =>
          match pyGetN ((dGet ctx.webhook_payload "issue").getD (.obj [])) "iid" with
          | .error e => (.error (ctx, e), w)
          | .ok iid0 =>
            match (if iid0.truthy then Except.ok iid0 else
              pyGetN ((dGet ctx.webhook_payload "object_attributes").getD (.obj []))
                "noteable_id") with
            | .error e => (.error (ctx, e), w)
            | .ok issue_iid =>
              if !project_id.truthy || !issue_iid.truthy then
                (.ok (okResult ctx false), w)
              else
                match (if env.gitlab_pat == "" then none else env.issueContent) with
                | none => (.ok (okResult ctx false), w)
                | some content =>
                  if content == "" then (.ok (okResult ctx false), w)
                  else
                    let issue_path := repo_dir ++ "/" ++ filename
                    (.ok (okResult { ctx with metadata := (
                      dSet ctx.metadata "issue_context_path" (.str issue_path)) } false), w)

set_option linter.unusedVariables false

/-- `os.path.relpath(path, start)` for the common case where `path` lies
inside `start` (the only case the stage produces). -/
def os_relpath (path start : String) : String :=
  if pyStartsWith path (start ++ "/") then pyDrop path (start.length + 1)
  else path

/-- The chunk-collection loop of
`OpencodeIntegrationStage._extract_text_events`: strip each line, skip
empty lines and JSON parse failures, and for every event whose "type" is
"text" append the truthy "part"."text" value.  Non-dict events or parts
raise (`AttributeError`), surfacing as a stage error. -/
def extractChunks (parse : String → Option Json) : List String → Except String (List Json)
  | [] => .ok []
  | line :: rest =>
    let trimmed := pyStrip line
    if trimmed == "" then extractChunks parse rest
    else
      match parse trimmed with
      | none => extractChunks parse rest
      | some event =>
        match pyGet event "type" with
        | .error e => .error e
        | .ok ty =>
          if optIsStr ty "text" then
            match pyGetD event "part" (.obj []) with
            | .error e => .error e
            | .ok part =>
              match pyGet part "text" with
              | .error e => .error e
              | .ok otext =>
                match extractChunks parse rest with
                | .error e => .error e
                | .ok rest' =>
                  if optTruthy otext then .ok (otext.getD .null :: rest')
                  else .ok rest'
          else extractChunks parse rest

/-- Python `"".join(chunks)`: concatenates string chunks, raises
`TypeError` on a non-string chunk. -/
def joinChunks : List Json → Except String String
  | [] => .ok ""
  | .str s :: rest =>
    match joinChunks rest with
    | .ok r => .ok (s ++ r)
    | .error e => .error e
  | _ :: _ => .error "TypeError"

/-- `OpencodeIntegrationStage._extract_text_events`: collect the text
chunks, join them with no separator, and strip surrounding whitespace. -/
def extract_text_events (parse : String → Option Json) (lines : List String) :
    Except String String :=
  match extractChunks parse lines with
  | .error e => .error e
  | .ok chunks =>
    match joinChunks chunks with
    | .error e => .error e
    | .ok s => .ok (pyStrip s)

/-- The reply computation of `OpencodeIntegrationStage._execute`: the
extracted text, or the fixed placeholder when it is empty. -/
def opencodeReply (parse : String → Option Json) (lines : List String) :
    Except String String :=
  match extract_text_events parse lines with
  | .error e => .error e
  | .ok c => .ok (if c == "" then "No response generated." else c)

/-- `OpencodeIntegrationStage._execute` of
src/pipelines/stages/opencode_integration.py, with `_extract_question`
inlined.  The subprocess call is summarized by the opencode fields of
`Env`; the two file writes inside the workspace are subsumed by the
workspace directory entry. -/
def opencodeIntegrationCore (model agent : String) (env : Env)
    (ctx : PipelineContext) (w : World) : CoreOut × World :=
  match ctx.local_context_path with
  | none => (.error (ctx, "No local_context_path available for opencode"), w)
  | some repo_dir =>
    if repo_dir == "" then
      (.error (ctx, "No local_context_path available for opencode"), w)
    else
      match (dGet ctx.metadata "note_body").getD (.str "") with
      | .str note_body =>
        match (dGet ctx.metadata "trigger_pattern").getD (.str "") with
        | .str trigger =>
          let question0 := pyStrip (pyReplace note_body trigger "")
          let question :=
            if question0 == "" then "No additional question provided."
            else question0
          let prompt0 := pyStrip ("Answer this GitLab thread question:\n\n" ++ question)
          let icp := dGet ctx.metadata "issue_context_path"
          match (if optTruthy icp then
              match icp with
              | some (.str p) =>
                Except.ok (prompt0 ++ "\n\nUse the issue thread context in " ++
                  os_relpath p repo_dir ++ ".")
              | _ => Except.error "TypeError"
            else Except.ok prompt0) with
          | .error e => (.error (ctx, e), w)
          | .ok prompt =>
            if env.opencodeReturncode != 0 then
              let errMsg :=
                if pyStrip env.opencodeStderr == "" then "Unknown opencode error"
                else pyStrip env.opencodeStderr
              (.error (ctx, "opencode run failed: " ++ errMsg), w)
            else
              let events_path := repo_dir ++ "/opencode_events.jsonl"
              let reply_path := repo_dir ++ "/opencode_reply.md"
              match opencodeReply env.jsonParse env.opencodeStdoutLines with
              | .error e => (.error (ctx, e), w)
              | .ok content =>
                (.ok (okResult { ctx with agent_result := (
                  some { content := pyStrip content, format := "markdown",
                         metadata := [("agent_type", .str agent),
                                      ("model", .str model),
                                      ("opencode_events_path", .str events_path),
                                      ("opencode_reply_path", .str reply_path)] }) } false), w)
        | _ => (.error (ctx, "TypeError"), w)
      | _ => (.error (ctx, "AttributeError"), w)

/-- `NoteUpdaterStage._execute` of src/pipelines/stages/note_updater.py. -/
def noteUpdaterCore (env : Env) (ctx : PipelineContext) (w : World) :
    CoreOut × World :=
  let payload := ctx.webhook_payload
  match pyGetN ((dGet payload "project").getD (.obj [])) "id" with
  | .error e => (.error (ctx, e), w)
  | .ok project_id =>
    let ntype := (dGet ctx.metadata "noteable_type").getD .null
    match getNoteableIid payload with
    | .error e => (.error (ctx, e), w)
    | .ok niid =>
      if optTruthy (dGet ctx.metadata "pipeline_error") then
        let errVal := (dGet ctx.metadata "pipeline_error").getD (.str "Unknown error")
        let posted := post_gitlab_note env w project_id ntype niid
          (failureBody (jsonStr errVal))
        (.ok (okResult ctx false), posted.2)
      else
        let content :=
          match ctx.agent_result with
          | some r => r.content
          | none => "No results generated"
        let posted := post_gitlab_note env w project_id ntype niid
          (successBody content)
        (.ok (okResult ctx false), posted.2)

/-- The logged class name of each stage. -/
def stageName : StageImpl → String
  | .hookResolver => "HookResolverStage"
  | .snapshotResolver => "SnapshotResolverStage"
  | .contextBuilder => "ContextBuilderStage"
  | .agentExecutor _ => "AgentExecutorStage"
  | .issueContextFetcher _ => "IssueContextFetcherStage"
  | .opencodeIntegration _ _ => "OpencodeIntegrationStage"
  | .noteUpdater => "NoteUpdaterStage"

/-- Dispatch to the `_execute` body of each concrete stage. -/
def runCore : StageImpl → Env → PipelineContext → World → CoreOut × World
  | .hookResolver => hookResolverCore
  | .snapshotResolver => snapshotResolverCore
  | .contextBuilder => contextBuilderCore
  | .agentExecutor t => agentExecutorCore t
  | .issueContextFetcher f => issueContextFetcherCore f
  | .opencodeIntegration m a => opencodeIntegrationCore m a
  | .noteUpdater => noteUpdaterCore

/-- `Stage.execute` of src/pipelines/base.py: log entry, run the body, and
convert any raised exception into
`StageResult(should_stop=True, error=e, success=False)` built on the
context as mutated so far. -/
def stageExecute (s : StageImpl) (env : Env) (ctx : PipelineContext) (w : World) :
    StageResult × World :=
  let w1 := pushLog (.enter (stageName s)) w
  match runCore s env ctx w1 with
  | (.ok r, w2) => (r, pushLog (.complete (stageName s)) w2)
  | (.error (c, e), w2) =>
    ({ context := c, should_stop := true, error := some e, success := false },
      pushLog (.fail (stageName s)) w2)

/-- The stage loop of `Pipeline.execute`: run stages in order, replacing
the working context with each returned one; on `should_stop` with an
error, record the error text into the metadata side-channel under
"pipeline_error" and return at once; on `should_stop` without an error,
return at once; when stages are exhausted, return a fresh successful
result. -/
def pipelineRun (env : Env) : List StageImpl → PipelineContext → World →
    StageResult × World
  | [], ctx, w => ({ context := ctx, should_stop := false, success := true }, w)
  | s :: rest, ctx, w =>
    let out := stageExecute s env ctx w
    if out.1.should_stop then
      match out.1.error with
      | some e =>
        ({ out.1 with context := { out.1.context with metadata := (
            dSet out.1.context.metadata "pipeline_error" (.str e)) } }, out.2)
      | none => (out.1, out.2)
    else pipelineRun env rest out.1.context out.2

/-- The `finally` block of `Pipeline.execute`: for the attribute
`local_context_path`, if the final context carries a truthy path, remove
that directory tree; the block runs exactly once per invocation. -/
def pipelineCleanup (ctx : PipelineContext) (w : World) : World :=
  match ctx.local_context_path with
  | some p =>
    if p != "" then
      { w with fs := w.fs.filter (fun q => q != p), cleanups := w.cleanups + 1 }
    else { w with cleanups := w.cleanups + 1 }
  | none => { w with cleanups := w.cleanups + 1 }

/-- `Pipeline.execute` of src/pipelines/base.py: the stage loop followed by
the unconditional workspace cleanup (the loop never raises, so the
`finally` block runs on every return path, against the final context). -/
def pipelineExecute (env : Env) (stages : List StageImpl)
    (ctx : PipelineContext) (w : World) : StageResult × World :=
  let out := pipelineRun env stages ctx w
  (out.1, pipelineCleanup out.1.context out.2)

/-- The oc_review pipeline stage list (also `reviewCommand.stages`). -/
def ocReviewStages : List StageImpl := reviewCommand.stages

lemma find?_first_split {α} (p : α → Bool) :
    ∀ (l : List α) (c : α), l.find? p = some c →
      ∃ l₁ l₂, l = l₁ ++ c :: l₂ ∧ (∀ x ∈ l₁, p x = false) ∧ p c = true := by
  intro l
  induction l with
  | nil => intro c h; simp [List.find?] at h
  | cons a t ih =>
    intro c h
    by_cases ha : p a
    · rw [List.find?_cons_of_pos _ ha] at h
      obtain rfl : a = c := by simpa using h
      exact ⟨[], t, rfl, by simp, ha⟩
    · rw [List.find?_cons_of_neg _ (by simpa using ha)] at h
      obtain ⟨l₁, l₂, rfl, h1, h2⟩ := ih c h
      refine ⟨a :: l₁, l₂, rfl, ?_, h2⟩
      intro x hx
      rcases List.mem_cons.1 hx with rfl | hx
      · simpa using ha
      · exact h1 x hx

/-- C3: for every text, `detect_command` returns none exactly when no
registered trigger phrase occurs in it; any returned Command is a
registered one whose trigger occurs in the text and that is the first such
Command in registration order; and when at least one registered trigger
occurs, some Command is returned. -/
theorem detect_command_first_match (text : String) :
    (detect_command text = none ↔
      ∀ c ∈ COMMANDS, pyIn c.trigger_pattern text = false) ∧
    (∀ c, detect_command text = some c →
      pyIn c.trigger_pattern text = true ∧
      ∃ l₁ l₂, COMMANDS = l₁ ++ c :: l₂ ∧
        ∀ d ∈ l₁, pyIn d.trigger_pattern text = false) ∧
    ((∃ c ∈ COMMANDS, pyIn c.trigger_pattern text = true) →
      ∃ c, detect_command text = some c) := by
  refine ⟨?_, ?_, ?_⟩
  · unfold detect_command
    rw [List.find?_eq_none]
    constructor
    · intro h c hc
      simpa using h c hc
    · intro h c hc
      simpa using h c hc
  · intro c h
    obtain ⟨l₁, l₂, hl, h1, h2⟩ := find?_first_split _ _ _ h
    exact ⟨h2, l₁, l₂, hl, h1⟩
  · rintro ⟨c, hc, hp⟩
    cases hfind : detect_command text with
    | some d => exact ⟨d, rfl⟩
    | none =>
      exfalso
      unfold detect_command at hfind
      rw [List.find?_eq_none] at hfind
      exact absurd hp (by simpa using hfind c hc)

/-- Witness for C3 at a concrete comment body containing exactly one
registered trigger phrase. -/
theorem detect_command_first_match_witness :
    (∃ c ∈ COMMANDS, pyIn c.trigger_pattern "please /oc_ask about this" = true) ∧
    ∃ c, detect_command "please /oc_ask about this" = some c := by
  refine ⟨⟨askCommand, ?_, ?_⟩, ?_⟩
  · exact List.mem_cons_of_mem _ (List.mem_cons_self _ _)
  · decide
  · exact (detect_command_first_match "please /oc_ask about this").2.2
      ⟨askCommand, List.mem_cons_of_mem _ (List.mem_cons_self _ _), by decide⟩

/-- C4: for every comment (note) event whose body begins with the
self-echo marker, the gate stage returns a stop result with no error,
leaving the context and the world (posted comments, log) untouched — in
particular Registry detection never fires and no acknowledgement is
posted, whatever else the body contains. -/
theorem self_echo_gate_stops (env : Env) (ctx : PipelineContext) (w : World)
    (s : String)
    (h1 : optIsStr (dGet ctx.webhook_payload "object_kind") "note" = true)
    (h2 : pyGetD ((dGet ctx.webhook_payload "object_attributes").getD (Json.obj []))
      "note" (Json.str "") = .ok (Json.str s))
    (h3 : pyStartsWith s selfEchoMarker = true) :
    runCore .hookResolver env ctx w = (.ok (okResult ctx true), w) := by
  obtain ⟨fields, hob⟩ :
      ∃ fs, (dGet ctx.webhook_payload "object_attributes").getD (Json.obj []) =
        Json.obj fs := by
    rcases h : (dGet ctx.webhook_payload "object_attributes").getD (Json.obj []) with
      _ | b | n | t | xs | fs
    all_goals rw [h] at h2
    all_goals simp [pyGetD, pyGet] at h2
    exact ⟨fs, rfl⟩
  rw [hob] at h2
  simp only [pyGetD, pyGet] at h2
  have h2' : (dGet fields "note").getD (Json.str "") = Json.str s := by
    simpa using h2
  unfold runCore hookResolverCore
  simp only [h1, Bool.not_true, if_false, hob, pyGetD, pyGetN, pyGet, h2', h3]
  simp

/-- An initial, empty world. -/
def w0 : World := {}

/-- A concrete environment for witnesses: credentials present, HTTP posts
succeed with note id 101, git operations succeed. -/
def envW : Env :=
  { gitlab_pat := "glpat-token",
    httpPost := fun _ => some (.obj [("id", .num 101)]),
    tempName := "/tmp/opencode_c1",
    cloneOk := true,
    checkoutOk := fun _ => true,
    opencodeReturncode := 0,
    opencodeStdoutLines := [],
    opencodeStderr := "",
    jsonParse := fun _ => none,
    issueContent := none }

/-- A note event whose body is an acknowledgement comment the system
itself posted (it even contains a registered trigger phrase). -/
def ctxEcho : PipelineContext :=
  { webhook_payload := [("object_kind", .str "note"),
      ("object_attributes", .obj [
        ("note", .str "🤖 OpenCode started working on `/oc_review`..."),
        ("noteable_type", .str "MergeRequest")])] }

/-- Witness for C4: the gate stops on a concrete self-echo note containing
a trigger phrase, with context and world untouched. -/
theorem self_echo_gate_stops_witness :
    runCore .hookResolver envW ctxEcho w0 = (.ok (okResult ctxEcho true), w0) :=
  self_echo_gate_stops envW ctxEcho w0
    "🤖 OpenCode started working on `/oc_review`..." rfl rfl (by decide)

/-- C5: the revision resolver always stores a defined snapshot descriptor:
for a merge-request thread whose payload carries diff head revision R it
stores sha = R together with the source and target branch fields; for an
issue thread it stores sha = None and branch = "main"; for any other
thread type it stores an empty descriptor — never leaving `code_snapshot`
unset. -/
theorem snapshot_resolver_contract (env : Env) (ctx : PipelineContext)
    (w : World) (R sb tb : Json) :
    (optIsStr (dGet ctx.metadata "noteable_type") "MergeRequest" = true →
      mrHeadSha ctx.webhook_payload = .ok R →
      mrField ctx.webhook_payload "source_branch" = .ok sb →
      mrField ctx.webhook_payload "target_branch" = .ok tb →
      runCore .snapshotResolver env ctx w =
        (.ok (okResult { ctx with code_snapshot := (
          some [("sha", R), ("source_branch", sb), ("target_branch", tb)]) } false), w)) ∧
    (optIsStr (dGet ctx.metadata "noteable_type") "Issue" = true →
      runCore .snapshotResolver env ctx w =
        (.ok (okResult { ctx with code_snapshot := (
          some [("sha", Json.null), ("branch", Json.str "main")]) } false), w)) ∧
    (optIsStr (dGet ctx.metadata "noteable_type") "MergeRequest" = false →
      optIsStr (dGet ctx.metadata "noteable_type") "Issue" = false →
      runCore .snapshotResolver env ctx w =
        (.ok (okResult { ctx with code_snapshot := some [] } false), w)) := by
  refine ⟨?_, ?_, ?_⟩
  · intro h hsha hsb htb
    unfold runCore snapshotResolverCore
    simp only [h, if_true, hsha, hsb, htb]
  · intro hIss
    have hMR : optIsStr (dGet ctx.metadata "noteable_type") "MergeRequest" = false := by
      rcases hv : dGet ctx.metadata "noteable_type" with _ | v
      · simp [hv, optIsStr] at hIss
      · rw [hv] at hIss
        cases v <;> simp_all [optIsStr, Json.isStr]
    unfold runCore snapshotResolverCore
    simp only [hMR, hIss, if_true, if_false]
    simp
  · intro hMR hIss
    unfold runCore snapshotResolverCore
    simp only [hMR, hIss, if_false]
    simp

/-- A merge-request note payload triggering /oc_review, with project id 7
and head revision "abc123". -/
def payloadMR : Dict :=
  [("object_kind", .str "note"),
   ("object_attributes", .obj [
     ("note", .str "please /oc_review this"),
     ("noteable_type", .str "MergeRequest")]),
   ("project", .obj [("id", .num 7)]),
   ("merge_request", .obj [
     ("iid", .num 42),
     ("diff_refs", .obj [("head_sha", .str "abc123")]),
     ("source_branch", .str "feature"),
     ("target_branch", .str "main")])]

/-- A context as it reaches the snapshot resolver for `payloadMR` (the
gate stage has recorded the thread type). -/
def ctxMR : PipelineContext :=
  { webhook_payload := payloadMR,
    metadata := [("noteable_type", .str "MergeRequest")] }

/-- Witness for C5 at a concrete merge-request context with head revision
"abc123". -/
theorem snapshot_resolver_contract_witness :
    runCore .snapshotResolver envW ctxMR w0 =
      (.ok (okResult { ctxMR with code_snapshot := (
        some [("sha", .str "abc123"), ("source_branch", .str "feature"),
              ("target_branch", .str "main")]) } false), w0) :=
  (snapshot_resolver_contract envW ctxMR w0
    (.str "abc123") (.str "feature") (.str "main")).1 rfl rfl rfl rfl

/-- Shape of a successful stage-body outcome: built with the `StageResult`
defaults, so no error and success true. -/
def okShape : CoreOut → Prop
  | .ok r => r.error = none ∧ r.success = true
  | .error _ => True

lemma runCore_okShape (s : StageImpl) (env : Env) (ctx : PipelineContext)
    (w : World) : okShape (runCore s env ctx w).1 := by
  cases s <;>
    simp only [runCore, hookResolverCore, snapshotResolverCore,
      contextBuilderCore, agentExecutorCore, issueContextFetcherCore,
      opencodeIntegrationCore, noteUpdaterCore] <;>
    (repeat' split) <;>
    simp [okShape, okResult]

/-- C7: every `StageResult` produced by the `Stage.execute` wrapper, for
any stage of the repository on any context and world, satisfies the data
model invariant: success false implies should_stop true, and a present
error implies success false. -/
theorem stage_result_invariant (s : StageImpl) (env : Env)
    (ctx : PipelineContext) (w : World) :
    ((stageExecute s env ctx w).1.success = false →
      (stageExecute s env ctx w).1.should_stop = true) ∧
    ((stageExecute s env ctx w).1.error ≠ none →
      (stageExecute s env ctx w).1.success = false) := by
  have hshape := runCore_okShape s env ctx (pushLog (.enter (stageName s)) w)
  simp only [stageExecute]
  rcases hr : runCore s env ctx (pushLog (.enter (stageName s)) w) with ⟨out, w2⟩
  rw [hr] at hshape
  cases out with
  | ok r =>
    obtain ⟨he, hs⟩ : r.error = none ∧ r.success = true := by
      simpa [okShape] using hshape
    simp [he, hs]
  | error ce =>
    rcases ce with ⟨c, e⟩
    simp

/-- Witness for C7: the invariant instantiated at a concrete failing stage
execution (context builder on a payload without a clone URL). -/
theorem stage_result_invariant_witness :
    ((stageExecute .contextBuilder envW ctxMR w0).1.error ≠ none →
      (stageExecute .contextBuilder envW ctxMR w0).1.success = false) ∧
    ((stageExecute .contextBuilder envW ctxMR w0).1.success = false →
      (stageExecute .contextBuilder envW ctxMR w0).1.should_stop = true) :=
  ⟨(stage_result_invariant .contextBuilder envW ctxMR w0).2,
   (stage_result_invariant .contextBuilder envW ctxMR w0).1⟩

/-- The context carried by a stage-body outcome (the context of the
returned result, or the mutated context of a raise). -/
def outCtx : CoreOut → PipelineContext
  | .ok r => r.context
  | .error (c, _) => c

lemma runCore_path (s : StageImpl) (env : Env) (ctx : PipelineContext)
    (w : World) :
    (outCtx (runCore s env ctx w).1).local_context_path = ctx.local_context_path ∨
    (outCtx (runCore s env ctx w).1).local_context_path = some env.tempName := by
  cases s <;>
    simp only [runCore, hookResolverCore, snapshotResolverCore,
      contextBuilderCore, agentExecutorCore, issueContextFetcherCore,
      opencodeIntegrationCore, noteUpdaterCore] <;>
    (repeat' split) <;>
    simp [outCtx, okResult]

/-- A world evolved by a stage body: same cleanup count, log extended only
by non-entry events. -/
def worldFrame (w w' : World) : Prop :=
  w'.cleanups = w.cleanups ∧
  ∃ t, w'.log = w.log ++ t ∧ ∀ e ∈ t, e.isEnter = false

lemma worldFrame_refl (w : World) : worldFrame w w :=
  ⟨rfl, [], by simp, by simp⟩

lemma logExt_nil (w w' : World) (h : w'.log = w.log) :
    ∃ t, w'.log = w.log ++ t ∧ ∀ e ∈ t, e.isEnter = false :=
  ⟨[], by simp [h], by simp⟩

lemma logExt_warn (w w' : World) (m : String)
    (h : w'.log = w.log ++ [LogEvent.warn m]) :
    ∃ t, w'.log = w.log ++ t ∧ ∀ e ∈ t, e.isEnter = false :=
  ⟨[LogEvent.warn m], h, by simp [LogEvent.isEnter]⟩

lemma worldFrame_post (env : Env) (w : World) (pid nt niid : Json)
    (body : String) : worldFrame w (post_gitlab_note env w pid nt niid body).2 := by
  unfold post_gitlab_note pushLog
  (repeat' split) <;>
    refine ⟨rfl, ?_⟩ <;>
    first
      | exact logExt_nil _ _ rfl
      | exact logExt_warn _ _ _ rfl

lemma worldFrame_fs (w : World) (x : List String) :
    worldFrame w { w with fs := x } :=
  ⟨rfl, [], by simp, by simp⟩

lemma runCore_world (s : StageImpl) (env : Env) (ctx : PipelineContext)
    (w : World) : worldFrame w (runCore s env ctx w).2 := by
  cases s <;>
    simp only [runCore, hookResolverCore, snapshotResolverCore,
      contextBuilderCore, agentExecutorCore, issueContextFetcherCore,
      opencodeIntegrationCore, noteUpdaterCore] <;>
    (repeat' split) <;>
    first
      | exact worldFrame_refl _
      | exact worldFrame_post _ _ _ _ _ _
      | exact worldFrame_fs _ _

lemma stageExecute_path (s : StageImpl) (env : Env) (ctx : PipelineContext)
    (w : World) :
    (stageExecute s env ctx w).1.context.local_context_path = ctx.local_context_path ∨
    (stageExecute s env ctx w).1.context.local_context_path = some env.tempName := by
  have h := runCore_path s env ctx (pushLog (.enter (stageName s)) w)
  simp only [stageExecute]
  rcases hr : runCore s env ctx (pushLog (.enter (stageName s)) w) with ⟨out, w2⟩
  rw [hr] at h
  cases out with
  | ok r => simpa [outCtx] using h
  | error ce =>
    rcases ce with ⟨c, e⟩
    simpa [outCtx] using h

lemma stageExecute_cleanups (s : StageImpl) (env : Env) (ctx : PipelineContext)
    (w : World) : (stageExecute s env ctx w).2.cleanups = w.cleanups := by
  have h := (runCore_world s env ctx (pushLog (.enter (stageName s)) w)).1
  simp only [stageExecute]
  rcases hr : runCore s env ctx (pushLog (.enter (stageName s)) w) with ⟨out, w2⟩
  rw [hr] at h
  simp only [pushLog] at h
  cases out with
  | ok r => simpa [pushLog] using h
  | error ce =>
    rcases ce with ⟨c, e⟩
    simpa [pushLog] using h

lemma pipelineRun_cleanups (env : Env) :
    ∀ (stages : List StageImpl) (ctx : PipelineContext) (w : World),
      (pipelineRun env stages ctx w).2.cleanups = w.cleanups := by
  intro stages
  induction stages with
  | nil => intro ctx w; rfl
  | cons s rest ih =>
    intro ctx w
    have hc := stageExecute_cleanups s env ctx w
    simp only [pipelineRun]
    rcases hx : stageExecute s env ctx w with ⟨r, w1⟩
    rw [hx] at hc
    split
    · split <;> exact hc
    · rw [ih r.context w1]; exact hc

lemma pipelineRun_pathOk (env : Env) (he : env.tempName ≠ "") :
    ∀ (stages : List StageImpl) (ctx : PipelineContext) (w : World),
      ctx.local_context_path ≠ some "" →
      (pipelineRun env stages ctx w).1.context.local_context_path ≠ some "" := by
  intro stages
  induction stages with
  | nil => intro ctx w h; simpa [pipelineRun] using h
  | cons s rest ih =>
    intro ctx w h
    have hp := stageExecute_path s env ctx w
    simp only [pipelineRun]
    rcases hx : stageExecute s env ctx w with ⟨r, w1⟩
    rw [hx] at hp
    have hr : r.context.local_context_path ≠ some "" := by
      rcases hp with hp | hp
      · rw [hp]; exact h
      · rw [hp]
        intro hc
        exact he (by simpa using hc)
    split
    · split <;> simpa using hr
    · exact ih r.context w1 hr

/-- C2: after every `Pipeline.execute` invocation — normal completion,
early stop, or error, including a partial workspace left by a failing
context builder — the directory named by the final context field
`local_context_path` is gone from the filesystem; the `finally` cleanup
block runs exactly once per invocation; and when no workspace path was
ever assigned, the run returns with the filesystem untouched by cleanup. -/
theorem pipeline_workspace_cleanup (env : Env) (stages : List StageImpl)
    (ctx : PipelineContext) (w : World)
    (h1 : ctx.local_context_path ≠ some "") (h2 : env.tempName ≠ "") :
    (∀ p, (pipelineExecute env stages ctx w).1.context.local_context_path = some p →
      p ∉ (pipelineExecute env stages ctx w).2.fs) ∧
    (pipelineExecute env stages ctx w).2.cleanups = w.cleanups + 1 ∧
    ((pipelineExecute env stages ctx w).1.context.local_context_path = none →
      (pipelineExecute env stages ctx w).2.fs = (pipelineRun env stages ctx w).2.fs) := by
  have hpath := pipelineRun_pathOk env h2 stages ctx w h1
  have hcl := pipelineRun_cleanups env stages ctx w
  simp only [pipelineExecute]
  rcases hx : pipelineRun env stages ctx w with ⟨r, w1⟩
  rw [hx] at hpath hcl
  have hcl2 : w1.cleanups = w.cleanups := hcl
  have hpath2 : r.context.local_context_path ≠ some "" := hpath
  refine ⟨?_, ?_, ?_⟩
  · intro p hp
    have hpe : p ≠ "" := by
      intro hc
      rw [hc] at hp
      exact hpath2 hp
    simp only [pipelineCleanup]
    rw [hp]
    simp [hpe, List.mem_filter]
  · simp only [pipelineCleanup]
    (repeat' split) <;> simp [hcl2]
  · intro hnone
    simp only [pipelineCleanup]
    rw [hnone]

/-- A fresh context for a full pipeline run on `payloadMR` (whose project
entry carries no clone URL, so the context builder raises after creating
the workspace directory). -/
def ctxRun : PipelineContext := { webhook_payload := payloadMR }

/-- Witness for C2: on a concrete run whose context builder fails after
`mkdtemp`, the partial workspace is removed and the cleanup ran once. -/
theorem pipeline_workspace_cleanup_witness :
    "/tmp/opencode_c1" ∉ (pipelineExecute envW ocReviewStages ctxRun w0).2.fs ∧
    (pipelineExecute envW ocReviewStages ctxRun w0).2.cleanups = w0.cleanups + 1 :=
  ⟨(pipeline_workspace_cleanup envW ocReviewStages ctxRun w0
      (by simp [ctxRun]) (by decide)).1 "/tmp/opencode_c1" (by decide),
   (pipeline_workspace_cleanup envW ocReviewStages ctxRun w0
      (by simp [ctxRun]) (by decide)).2.1⟩

/-- C1: concrete run showing that when a stage (the context builder)
returns an error, the failure reason is recorded once under
"pipeline_error" in the final context, but the pipeline returns before
`NoteUpdaterStage` ever executes, so no failure comment (no body starting
with the "❌" marker) is posted — only the earlier acknowledgement
exists. -/
theorem pipeline_error_never_reaches_note_updater :
    (pipelineExecute envW ocReviewStages ctxRun w0).1.success = false ∧
    (pipelineExecute envW ocReviewStages ctxRun w0).1.error =
      some "No git_http_url in project" ∧
    optIsStr (dGet (pipelineExecute envW ocReviewStages ctxRun w0).1.context.metadata
      "pipeline_error") "No git_http_url in project" = true ∧
    ((pipelineExecute envW ocReviewStages ctxRun w0).2.posted.map
      (fun n => n.body)) = [ackBody "/oc_review"] ∧
    ((pipelineExecute envW ocReviewStages ctxRun w0).2.posted.all
      (fun n => !(pyStartsWith n.body "❌"))) = true ∧
    LogEvent.enter "NoteUpdaterStage" ∉
      (pipelineExecute envW ocReviewStages ctxRun w0).2.log := by
  decide

/-- C6: whenever a stage body raises, the `Stage.execute` wrapper returns
`StageResult(should_stop=true, success=false, error=that exception)`; the
pipeline result on that stage is the converted error result with the
error recorded in the side-channel, independent of whatever stages follow
(so no later stage of the run executes); and the run log gains exactly one
stage-entry event (the failing stage is executed once, never retried). -/
theorem stage_error_halts (s : StageImpl) (env : Env) (ctx : PipelineContext)
    (w : World) (c : PipelineContext) (e : String) (w2 : World)
    (h : runCore s env ctx (pushLog (.enter (stageName s)) w) = (.error (c, e), w2)) :
    stageExecute s env ctx w =
      ({ context := c, should_stop := true, error := some e, success := false },
        pushLog (.fail (stageName s)) w2) ∧
    (∀ rest, pipelineRun env (s :: rest) ctx w =
      ({ context := { c with metadata := (
           dSet c.metadata "pipeline_error" (.str e)) },
         should_stop := true, error := some e, success := false },
        pushLog (.fail (stageName s)) w2)) ∧
    (pushLog (.fail (stageName s)) w2).log.countP LogEvent.isEnter =
      w.log.countP LogEvent.isEnter + 1 := by
  have hse : stageExecute s env ctx w =
      ({ context := c, should_stop := true, error := some e, success := false },
        pushLog (.fail (stageName s)) w2) := by
    simp only [stageExecute]
    rw [h]
  refine ⟨hse, ?_, ?_⟩
  · intro rest
    simp only [pipelineRun]
    rw [hse]
    simp
  · obtain ⟨t, ht, hte⟩ := (runCore_world s env ctx (pushLog (.enter (stageName s)) w)).2
    rw [h] at ht
    have ht2 : w2.log = (pushLog (.enter (stageName s)) w).log ++ t := ht
    have htz : t.countP LogEvent.isEnter = 0 :=
      List.countP_eq_zero.mpr (by intro a ha; simp [hte a ha])
    simp [pushLog, ht2, List.countP_append, htz, LogEvent.isEnter]

/-- The world after logging entry into the context builder. -/
def wEnterCB : World := pushLog (.enter "ContextBuilderStage") w0

/-- The context mutated by the context builder before its raise (workspace
path assigned). -/
def ctxCBerr : PipelineContext :=
  { ctxRun with local_context_path := some "/tmp/opencode_c1" }

/-- The world mutated by the context builder before its raise (workspace
directory created). -/
def wCBerr : World := { wEnterCB with fs := ["/tmp/opencode_c1"] }

/-- Witness for C6: the context builder raising on a missing clone URL is
converted by the wrapper into the stopping failure result. -/
theorem stage_error_halts_witness :
    runCore .contextBuilder envW ctxRun wEnterCB =
      (.error (ctxCBerr, "No git_http_url in project"), wCBerr) ∧
    stageExecute .contextBuilder envW ctxRun w0 =
      ({ context := ctxCBerr, should_stop := true,
         error := some "No git_http_url in project", success := false },
        pushLog (.fail "ContextBuilderStage") wCBerr) := by
  refine ⟨rfl, ?_⟩
  exact (stage_error_halts .contextBuilder envW ctxRun w0 ctxCBerr
    "No git_http_url in project" wCBerr rfl).1

/-- Rewrite the context carried by a stage-body outcome. -/
def mapOutCtx (f : PipelineContext → PipelineContext) : CoreOut → CoreOut
  | .ok r => .ok { r with context := f r.context }
  | .error (c, e) => .error (f c, e)

lemma runCore_noteId (s : StageImpl) (hs : s ≠ .hookResolver) (env : Env)
    (ctx : PipelineContext) (w : World) (v : Json) :
    runCore s env { ctx with gitlab_note_id := v } w =
      (mapOutCtx (fun c => { c with gitlab_note_id := v })
        (runCore s env { ctx with gitlab_note_id := Json.null } w).1,
       (runCore s env { ctx with gitlab_note_id := Json.null } w).2) := by
  cases s with
  | hookResolver => exact absurd rfl hs
  | snapshotResolver =>
    cases ctx
    dsimp only [runCore, snapshotResolverCore]
    (repeat' split) <;> rfl
  | contextBuilder =>
    cases ctx
    dsimp only [runCore, contextBuilderCore]
    (repeat' split) <;> rfl
  | agentExecutor t =>
    cases ctx
    dsimp only [runCore, agentExecutorCore]
    (repeat' split) <;> rfl
  | issueContextFetcher f =>
    cases ctx
    dsimp only [runCore, issueContextFetcherCore]
    (repeat' split) <;> rfl
  | opencodeIntegration m a =>
    cases ctx
    dsimp only [runCore, opencodeIntegrationCore]
    (repeat' split) <;> rfl
  | noteUpdater =>
    cases ctx
    dsimp only [runCore, noteUpdaterCore]
    (repeat' split) <;> rfl

/-- C9: calling the comment-posting operation without credentials returns
none after logging a warning (no exception, no HTTP call, nothing
posted); the gate stage then still completes its run with `should_stop`
false, leaving the correlation id untouched (no id recorded); and every
behaviour of every later stage — outcome and world included — is independent of
`gitlab_note_id`, so the missing id cannot make any of them fail. -/
theorem post_missing_credentials_safe :
    (∀ (env : Env) (w : World) (pid nt niid : Json) (body : String),
      env.gitlab_pat = "" →
      post_gitlab_note env w pid nt niid body =
        (none, pushLog (.warn "GITLAB_PAT not configured, cannot post note") w) ∧
      (pushLog (.warn "GITLAB_PAT not configured, cannot post note") w).posted =
        w.posted) ∧
    (∀ (env : Env) (ctx : PipelineContext) (w : World) (s : String)
      (cmd : Command) (pid nid : Json),
      env.gitlab_pat = "" →
      optIsStr (dGet ctx.webhook_payload "object_kind") "note" = true →
      pyGetD ((dGet ctx.webhook_payload "object_attributes").getD (Json.obj []))
        "note" (Json.str "") = .ok (Json.str s) →
      pyStartsWith s selfEchoMarker = false →
      detect_command s = some cmd →
      pyGetN ((dGet ctx.webhook_payload "project").getD (Json.obj [])) "id" = .ok pid →
      getNoteableIid ctx.webhook_payload = .ok nid →
      ∃ c1, runCore .hookResolver env ctx w =
        (.ok (okResult c1 false),
          pushLog (.warn "GITLAB_PAT not configured, cannot post note") w) ∧
        c1.gitlab_note_id = ctx.gitlab_note_id) ∧
    (∀ (s : StageImpl), s ≠ .hookResolver →
      ∀ (env : Env) (ctx : PipelineContext) (w : World) (v : Json),
      runCore s env { ctx with gitlab_note_id := v } w =
        (mapOutCtx (fun c => { c with gitlab_note_id := v })
          (runCore s env { ctx with gitlab_note_id := Json.null } w).1,
         (runCore s env { ctx with gitlab_note_id := Json.null } w).2)) := by
  refine ⟨?_, ?_, ?_⟩
  · intro env w pid nt niid body hp
    constructor
    · unfold post_gitlab_note
      simp [hp]
    · rfl
  · intro env ctx w s cmd pid nid hp h1 h2 h3 h4 h5 h6
    obtain ⟨fields, hob⟩ :
        ∃ fs, (dGet ctx.webhook_payload "object_attributes").getD (Json.obj []) =
          Json.obj fs := by
      rcases h : (dGet ctx.webhook_payload "object_attributes").getD (Json.obj []) with
        _ | b | n | t | xs | fs
      all_goals rw [h] at h2
      all_goals simp [pyGetD, pyGet] at h2
      exact ⟨fs, rfl⟩
    rw [hob] at h2
    have hnt : pyGetN (Json.obj fields) "noteable_type" =
        .ok ((dGet fields "noteable_type").getD Json.null) := by
      simp [pyGetN, pyGet]
    have hpb : (env.gitlab_pat == "") = true := by simp [hp]
    unfold runCore hookResolverCore
    simp only [h1, Bool.not_true, if_false, hob, h2, hnt, h3, h4, h5, h6,
      post_gitlab_note, hpb, if_true]
    refine ⟨_, rfl, rfl⟩
  · intro s hs env ctx w v
    exact runCore_noteId s hs env ctx w v

/-- The witness environment with no access token configured. -/
def envNoPat : Env := { envW with gitlab_pat := "" }

/-- Witness for C9: with no token, a concrete post returns none with a
warning; the gate still completes without recording a correlation id; and
a later stage (the note updater) behaves identically whatever the id is. -/
theorem post_missing_credentials_safe_witness :
    post_gitlab_note envNoPat w0 (.num 7) (.str "MergeRequest") (.num 42) "hello" =
      (none, pushLog (.warn "GITLAB_PAT not configured, cannot post note") w0) ∧
    (∃ c1, runCore .hookResolver envNoPat ctxRun w0 =
      (.ok (okResult c1 false),
        pushLog (.warn "GITLAB_PAT not configured, cannot post note") w0) ∧
      c1.gitlab_note_id = ctxRun.gitlab_note_id) ∧
    runCore .noteUpdater envNoPat { ctxRun with gitlab_note_id := .num 5 } w0 =
      (mapOutCtx (fun c => { c with gitlab_note_id := .num 5 })
        (runCore .noteUpdater envNoPat
          { ctxRun with gitlab_note_id := Json.null } w0).1,
       (runCore .noteUpdater envNoPat
          { ctxRun with gitlab_note_id := Json.null } w0).2) := by
  refine ⟨(post_missing_credentials_safe.1 envNoPat w0 _ _ _ "hello" rfl).1,
    post_missing_credentials_safe.2.1 envNoPat ctxRun w0 "please /oc_review this"
      reviewCommand (.num 7) (.num 42) rfl rfl rfl (by decide) rfl rfl rfl,
    post_missing_credentials_safe.2.2 .noteUpdater (by decide) envNoPat ctxRun w0
      (.num 5)⟩

lemma pyStartsWith_append (a b pre : String) (h : pyStartsWith a pre = true) :
    pyStartsWith (a ++ b) pre = true := by
  simp only [pyStartsWith, decide_eq_true_eq] at h ⊢
  have hd : (a ++ b).data = a.data ++ b.data := rfl
  rw [hd]
  exact h.trans (List.prefix_append a.data b.data)

lemma pyStartsWith_append_false (a b pre : String)
    (h : pyStartsWith a pre = false) (hl : pre.length ≤ a.length) :
    pyStartsWith (a ++ b) pre = false := by
  simp only [pyStartsWith, decide_eq_false_iff_not] at h ⊢
  have hd : (a ++ b).data = a.data ++ b.data := rfl
  rw [hd]
  intro hc
  apply h
  have he : pre.data = (a.data ++ b.data).take pre.data.length :=
    List.prefix_iff_eq_take.mp hc
  have hl2 : pre.data.length ≤ a.data.length := hl
  rw [List.take_append_of_le_length hl2] at he
  rw [he]
  exact List.take_prefix _ _

/-- C10 counterexample: the results comment body posted by the success
path of `NoteUpdaterStage` does not begin with the prefix the self-echo
gate checks, and a redelivery of such a comment whose content mentions a
trigger phrase passes the gate (the gate completes with `should_stop`
false and even re-acknowledges), contradicting the claim that both posted
bodies begin with the gate prefix. -/
theorem results_body_not_gate_prefixed :
    pyStartsWith (successBody "Try /oc_review on the next MR.") selfEchoMarker
      = false ∧
    (stageExecute .hookResolver envW
      { webhook_payload := [("object_kind", .str "note"),
        ("object_attributes", .obj [
          ("note", .str (successBody "Try /oc_review on the next MR.")),
          ("noteable_type", .str "MergeRequest")]),
        ("project", .obj [("id", .num 7)]),
        ("merge_request", .obj [("iid", .num 42)])] }
      w0).1.should_stop = false := by
  constructor
  · decide
  · decide

/-- C10 (amended): the acknowledgement body begins with the gate prefix
"🤖 OpenCode", so its redelivery is stopped by the gate; the results body
begins with "🤖 **OpenCode Results**", which does not begin with the gate
prefix, so the prefix check does not stop its redelivery; the failure body
begins with "❌" and also does not begin with the gate prefix. -/
theorem comment_body_markers (t c e : String) :
    pyStartsWith (ackBody t) selfEchoMarker = true ∧
    pyStartsWith (successBody c) "🤖 **OpenCode Results**" = true ∧
    pyStartsWith (successBody c) selfEchoMarker = false ∧
    pyStartsWith (failureBody e) "❌" = true ∧
    pyStartsWith (failureBody e) selfEchoMarker = false := by
  refine ⟨?_, ?_, ?_, ?_, ?_⟩
  · simp only [ackBody]
    exact pyStartsWith_append _ _ _ (pyStartsWith_append _ _ _ (by decide))
  · simp only [successBody]
    exact pyStartsWith_append _ _ _ (by decide)
  · simp only [successBody]
    exact pyStartsWith_append_false _ _ _ (by decide) (by decide)
  · simp only [failureBody]
    exact pyStartsWith_append _ _ _ (by decide)
  · simp only [failureBody]
    exact pyStartsWith_append_false _ _ _ (by decide) (by decide)

/-- Concatenation of a list of strings with no separator. -/
def concatAll : List String → String
  | [] => ""
  | s :: rest => s ++ concatAll rest

/-- A stdout line the extraction loop can process without raising: blank,
unparseable, a JSON object whose "part" (when the event is a text event)
is an object-or-absent and whose truthy "text" is a string. -/
def wfEventLine (parse : String → Option Json) (line : String) : Bool :=
  let t := pyStrip line
  if t == "" then true
  else
    match parse t with
    | none => true
    | some (.obj fields) =>
      if optIsStr (dGet fields "type") "text" then
        match (dGet fields "part").getD (.obj []) with
        | .obj pf =>
          match dGet pf "text" with
          | some v => !v.truthy || (match v with | .str _ => true | _ => false)
          | none => true
        | _ => false
      else true
    | some _ => false

/-- The text content of every event tagged as a textual-output event, in
stream order (the claim-side reading of the extraction loop). -/
def textPieces (parse : String → Option Json) : List String → List String
  | [] => []
  | line :: rest =>
    let t := pyStrip line
    if t == "" then textPieces parse rest
    else
      match parse t with
      | none => textPieces parse rest
      | some (.obj fields) =>
        if optIsStr (dGet fields "type") "text" then
          match (dGet fields "part").getD (.obj []) with
          | .obj pf =>
            match dGet pf "text" with
            | some (.str s) =>
              if s == "" then textPieces parse rest
              else s :: textPieces parse rest
            | _ => textPieces parse rest
          | _ => textPieces parse rest
        else textPieces parse rest
      | some _ => textPieces parse rest

lemma extractChunks_eq (parse : String → Option Json) :
    ∀ (lines : List String), (∀ l ∈ lines, wfEventLine parse l = true) →
      extractChunks parse lines = .ok ((textPieces parse lines).map Json.str) := by
  intro lines
  induction lines with
  | nil => intro h; rfl
  | cons line rest ih =>
    intro h
    have hline := h line (List.mem_cons_self _ _)
    have hrest := ih (fun l hl => h l (List.mem_cons_of_mem _ hl))
    simp only [extractChunks, textPieces]
    by_cases ht : (pyStrip line == "") = true
    · simp only [ht, if_true]
      exact hrest
    · have ht' : (pyStrip line == "") = false := by simpa using ht
      simp only [wfEventLine, ht', Bool.false_eq_true, if_false] at hline
      simp only [ht', Bool.false_eq_true, if_false]
      cases hp : parse (pyStrip line) with
      | none =>
        simp only [hp]
        exact hrest
      | some ev =>
        rw [hp] at hline
        simp only [hp]
        cases ev with
        | obj fields =>
          simp only [pyGet, pyGetD]
          by_cases hty : optIsStr (dGet fields "type") "text" = true
          · simp only [hty, if_true] at hline ⊢
            rcases hpart : (dGet fields "part").getD (Json.obj []) with
              _ | b | n | str | xs | pf
            all_goals rw [hpart] at hline
            all_goals try simp at hline
            cases htext : dGet pf "text" with
            | none =>
              simp only [htext, optTruthy, hrest]
              rfl
            | some v =>
              rw [htext] at hline
              simp only [htext]
              cases v with
              | str s =>
                by_cases hs : (s == "") = true
                · have hs' : s = "" := by simpa using hs
                  simp [hs', optTruthy, Json.truthy, hrest]
                · have hs' : (s == "") = false := by simpa using hs
                  have hsn : s ≠ "" := by simpa using hs
                  simp [hs', optTruthy, Json.truthy, hrest, hsn]
              | null => simp [optTruthy, Json.truthy, hrest]
              | bool b =>
                cases b
                · simp [optTruthy, Json.truthy, hrest]
                · simp [Json.truthy] at hline
              | num n =>
                by_cases hn : n = 0
                · simp [hn, optTruthy, Json.truthy, hrest]
                · simp [Json.truthy, hn] at hline
              | arr xs =>
                cases xs
                · simp [optTruthy, Json.truthy, hrest]
                · simp [Json.truthy] at hline
              | obj ofs =>
                cases ofs
                · simp [optTruthy, Json.truthy, hrest]
                · simp [Json.truthy] at hline
          · have hty' : optIsStr (dGet fields "type") "text" = false := by
              simpa using hty
            simp only [hty', Bool.false_eq_true, if_false]
            exact hrest
        | null => simp at hline
        | bool b => simp at hline
        | num n => simp at hline
        | str s => simp at hline
        | arr xs => simp at hline

lemma joinChunks_map (pieces : List String) :
    joinChunks (pieces.map Json.str) = .ok (concatAll pieces) := by
  induction pieces with
  | nil => rfl
  | cons s rest ih => simp [joinChunks, concatAll, ih]

/-- C8: for every agent stdout stream of processable lines, the reply is
the concatenation, in stream order and with no separator, of the text
content of every event tagged "text" (with surrounding whitespace
stripped); when there are no textual events — or every extracted piece is
whitespace — the reply is the fixed placeholder "No response generated.". -/
theorem opencode_reply_concatenation (parse : String → Option Json)
    (lines : List String) (h : ∀ l ∈ lines, wfEventLine parse l = true) :
    opencodeReply parse lines =
      .ok (if pyStrip (concatAll (textPieces parse lines)) == "" then
        "No response generated."
      else pyStrip (concatAll (textPieces parse lines))) ∧
    (textPieces parse lines = [] →
      opencodeReply parse lines = .ok "No response generated.") := by
  have h1 := extractChunks_eq parse lines h
  constructor
  · simp only [opencodeReply, extract_text_events, h1, joinChunks_map]
  · intro hz
    simp only [opencodeReply, extract_text_events, h1, hz, joinChunks_map]
    rfl

/-- A concrete `json.loads` oracle for the C8 witness: two text events and
one unparseable line. -/
def parseStub : String → Option Json :=
  fun s =>
    if s == "A" then
      some (.obj [("type", .str "text"), ("part", .obj [("text", .str "Hello ")])])
    else if s == "B" then
      some (.obj [("type", .str "text"), ("part", .obj [("text", .str "world")])])
    else none

/-- Witness for C8 on a concrete three-line stream (two text events, one
unparseable line). -/
theorem opencode_reply_concatenation_witness :
    (∀ l ∈ ["A", "B", "x"], wfEventLine parseStub l = true) ∧
    opencodeReply parseStub ["A", "B", "x"] =
      .ok (if pyStrip (concatAll (textPieces parseStub ["A", "B", "x"])) == "" then
        "No response generated."
      else pyStrip (concatAll (textPieces parseStub ["A", "B", "x"]))) :=
  ⟨by decide, (opencode_reply_concatenation parseStub ["A", "B", "x"] (by decide)).1⟩

/-- A parse oracle for the C8 counterexample: "T" is a text event with
surrounding whitespace, "W" a text event of pure whitespace. -/
def parseWs : String → Option Json :=
  fun s =>
    if s == "T" then
      some (.obj [("type", .str "text"), ("part", .obj [("text", .str " hi ")])])
    else if s == "W" then
      some (.obj [("type", .str "text"), ("part", .obj [("text", .str "   ")])])
    else none

/-- C8 counterexample: the reply is not the plain concatenation of the
text contents — surrounding whitespace is stripped ("hi", not " hi "),
and a stream whose only textual event is pure whitespace yields the
placeholder even though a textual event with non-empty text exists. -/
theorem opencode_reply_strips_counterexample :
    opencodeReply parseWs ["T"] = .ok "hi" ∧
    concatAll (textPieces parseWs ["T"]) = " hi " ∧
    opencodeReply parseWs ["W"] = .ok "No response generated." ∧
    textPieces parseWs ["W"] = ["   "] :=
  ⟨rfl, rfl, rfl, rfl⟩
